import Mathlib

/-!
Shallow embedding of the feature-matching wrapper consisting of the classes
`Detector`, `Matcher` and `MatchHandler`, present in two C++ translation
units (`feature.hpp` and a revised unnamed source file).  The revised file is
the current version; `feature.hpp` is an older variant kept for comparison.

External OpenCV routines (keypoint detection, nearest-neighbour matching,
drawing primitives) are modelled as explicit function parameters or symbolic
constructors; everything computed by the repository code itself is translated
directly.  C++ `float` values are modelled as exact rationals.
-/

namespace FeatureRepo

/-- A `cv::Mat` (image or descriptor matrix): rows of rationals. -/
abbrev Mat := List (List ℚ)

/-- The column count of a `cv::Mat` in the rows-of-rationals model. -/
def matCols (m : Mat) : Nat := (m.headD []).length

/-- A `cv::KeyPoint`: location only, which is all this code observes. -/
structure KeyPt where
  x : ℚ
  y : ℚ
deriving DecidableEq, Repr

/-- A `cv::DMatch`: query/train indices and a distance score. -/
structure DMatch where
  queryIdx : Nat
  trainIdx : Nat
  distance : ℚ
deriving DecidableEq, Repr

/-- `cv::DMatch::operator<` compares the `distance` field, so `std::sort`
orders matches by ascending distance.  This is the non-strict ordering used
to express that a match list is sorted. -/
def dmatchLE (a b : DMatch) : Prop := a.distance ≤ b.distance

instance : DecidableRel dmatchLE :=
  fun a b => inferInstanceAs (Decidable (a.distance ≤ b.distance))

instance : IsTotal DMatch dmatchLE := ⟨fun a b => le_total a.distance b.distance⟩

instance : IsTrans DMatch dmatchLE := ⟨fun _ _ _ hab hbc => le_trans hab hbc⟩

/-- The concrete `cv::Feature2D` algorithm a `Detector` is bound to.  The
repository creates exactly these five. -/
inductive FeatureAlg where
  | sift : FeatureAlg
  | surf : FeatureAlg
  | orb : FeatureAlg
  | kaze : FeatureAlg
  | brisk : FeatureAlg
deriving DecidableEq, Repr

/-- The `Detector` class: a `cv::Feature2D` algorithm, its name, and the last
image / keypoints / descriptors it computed. -/
structure Detector where
  feature : FeatureAlg
  name : String
  image : Mat
  keypts : List KeyPt
  descriptors : Mat
deriving DecidableEq, Repr

/-- The two-argument `Detector` constructor `Detector(_name, _feature)`:
stores the name and the algorithm; image, keypoints and descriptors are
default-initialised (empty). -/
def Detector.init (name : String) (feature : FeatureAlg) : Detector :=
  ⟨feature, name, [], [], []⟩

/-- `Detector::Factory(name)` from the revised source: each recognised name
immediately returns `Detector(name, <create call>)`; any other name throws
`std::string("error")`. -/
def Detector.Factory (name : String) : Except String Detector :=
  if name = "sift" then Except.ok (Detector.init name FeatureAlg.sift)
  else if name = "surf" then Except.ok (Detector.init name FeatureAlg.surf)
  else if name = "orb" then Except.ok (Detector.init name FeatureAlg.orb)
  else if name = "kaze" then Except.ok (Detector.init name FeatureAlg.kaze)
  else if name = "brisk" then Except.ok (Detector.init name FeatureAlg.brisk)
  else Except.error "error"

/-- The `FeaturePtr desc` value computed by the `feature.hpp` version of
`Detector::Factory` before its single `return Detector(name, desc)`; an
unrecognised name throws before the return is reached. -/
def detectorFactoryDesc (name : String) : Except String FeatureAlg :=
  if name = "sift" then Except.ok FeatureAlg.sift
  else if name = "surf" then Except.ok FeatureAlg.surf
  else if name = "orb" then Except.ok FeatureAlg.orb
  else if name = "kaze" then Except.ok FeatureAlg.kaze
  else if name = "brisk" then Except.ok FeatureAlg.brisk
  else Except.error "error"

/-- `Detector::Factory(name)` as written in `feature.hpp`: first compute
`desc` (throwing for an unrecognised name), then `return Detector(name, desc)`. -/
def Detector.FactoryHpp (name : String) : Except String Detector :=
  match detectorFactoryDesc name with
  | Except.ok desc => Except.ok (Detector.init name desc)
  | Except.error e => Except.error e

/-- `Detector::DetectAndCompute(_image)`: store the image and replace the
keypoint/descriptor state with freshly computed values.  The external
`feature->detectAndCompute` call is modelled by the oracle `dac`, a function
of the bound algorithm and the image. -/
def Detector.DetectAndCompute (dac : FeatureAlg → Mat → List KeyPt × Mat)
    (d : Detector) (img : Mat) : Detector :=
  { d with
    image := img
    keypts := (dac d.feature img).1
    descriptors := (dac d.feature img).2 }

/-- The `DetectResult` view returned by `Detector::getResult()`. -/
structure DetectResult where
  name : String
  image : Mat
  keypts : List KeyPt
  descriptors : Mat
deriving DecidableEq, Repr

/-- `Detector::getResult()`. -/
def Detector.getResult (d : Detector) : DetectResult :=
  ⟨d.name, d.image, d.keypts, d.descriptors⟩

/-- `Detector::GetName()`. -/
def Detector.GetName (d : Detector) : String := d.name

/-- The distance norm a `cv::BFMatcher` is created with.  The repository only
ever constructs `cv::NORM_HAMMING` (for binary descriptors) and `cv::NORM_L1`. -/
inductive NormKind where
  | hamming : NormKind
  | l1 : NormKind
deriving DecidableEq, Repr

/-- The index configuration of a `cv::FlannBasedMatcher`.  The repository
constructs either `cv::flann::LshIndexParams(12, 20, 2)` or the library
default index. -/
inductive FlannIndex where
  | lsh (tableNumber keySize multiProbeLevel : Nat) : FlannIndex
  | defaultIndex : FlannIndex
deriving DecidableEq, Repr

/-- The concrete matching strategy bound to a `Matcher`
(the `MatcherPtr matcher` member). -/
inductive MatcherAlg where
  | bf (norm : NormKind) : MatcherAlg
  | flannBased (index : FlannIndex) : MatcherAlg
deriving DecidableEq, Repr

/-- The `Matcher` class: a matching strategy, its name, and the stored match
list (the `matches` member, renamed `matches'` because `matches` is reserved
in Lean). -/
structure Matcher where
  alg : MatcherAlg
  name : String
  matches' : List DMatch
deriving DecidableEq, Repr

/-- `Matcher::Factory(name, descName)` from the revised source: dispatches on
the matcher name, selecting the LSH index (flann) or the Hamming norm (bf)
when the descriptor algorithm is "orb", and the default index (flann) or the
L1 norm (bf) otherwise; any other matcher name throws. -/
def Matcher.Factory (name descName : String) : Except String Matcher :=
  if name = "flann" then
    if descName = "orb" then
      Except.ok ⟨MatcherAlg.flannBased (FlannIndex.lsh 12 20 2), name, []⟩
    else
      Except.ok ⟨MatcherAlg.flannBased FlannIndex.defaultIndex, name, []⟩
  else if name = "bf" then
    if descName = "orb" then
      Except.ok ⟨MatcherAlg.bf NormKind.hamming, name, []⟩
    else
      Except.ok ⟨MatcherAlg.bf NormKind.l1, name, []⟩
  else
    Except.error "error"

/-- The initial value of the process-wide shared acceptance ratio: the static
local `acceptRatio = 0.5f` inside `Matcher::AcceptRatio()`. -/
def Matcher.acceptRatioInit : ℚ := 1 / 2

/-- `const int numGoodMatches = matches.size() * AcceptRatio();` — the
float product truncated to `int`, which for a non-negative ratio is the
floor of the exact product. -/
def numGoodMatches (n : Nat) (ratio : ℚ) : Nat := (⌊(n : ℚ) * ratio⌋).toNat

/-- The body of `Matcher::MatchDescriptors` after the external
`matcher->match` call has produced the raw match list: sort by distance
(`std::sort` with `DMatch::operator<`) and erase everything past
`numGoodMatches`. -/
def filterMatches (ratio : ℚ) (raw : List DMatch) : List DMatch :=
  (List.insertionSort dmatchLE raw).take (numGoodMatches raw.length ratio)

/-- `Matcher::MatchDescriptors(referDesc, inputDesc)` from the revised
source.  The external nearest-neighbour search `matcher->match(inputDesc,
referDesc, matches)` is modelled by the oracle `cvMatch`, applied to the
matcher's algorithm and the two descriptor matrices (query first); the
current shared acceptance ratio is passed explicitly.  The member match list
is overwritten with the sorted, truncated result. -/
def Matcher.MatchDescriptors (cvMatch : MatcherAlg → Mat → Mat → List DMatch)
    (ratio : ℚ) (m : Matcher) (referDesc inputDesc : Mat) : Matcher :=
  { m with matches' := filterMatches ratio (cvMatch m.alg inputDesc referDesc) }

/-- The `MatcherResult` view returned by `Matcher::getResult()`. -/
structure MatcherResult where
  name : String
  matches' : List DMatch
deriving DecidableEq, Repr

/-- `Matcher::getResult()`. -/
def Matcher.getResult (m : Matcher) : MatcherResult := ⟨m.name, m.matches'⟩

/-- How construction of a `MatchHandler` can fail: the length assertion
`assert(features.size() == matcher.size())` aborting, or one of the
factories throwing. -/
inductive CtorError where
  | assertViolation : CtorError
  | thrown (msg : String) : CtorError
deriving DecidableEq, Repr

/-- The `MatchHandler` class: parallel lists of reference-side detectors,
input-side detectors and matchers, plus the internally tracked acceptance
ratio member. -/
structure MatchHandler where
  referDets : List Detector
  inputDets : List Detector
  matchers : List Matcher
  acceptRatio : ℚ
deriving DecidableEq, Repr

/-- The `MatchHandler(features, matcher)` constructor from the revised
source: assert equal list lengths, build one reference-side and one
input-side `Detector` per feature name, then one `Matcher` per matcher name,
passing the paired input detector's stored name as the descriptor algorithm
name; the member `acceptRatio` is initialised to `0.5f`. -/
def MatchHandler.construct (features matcherNames : List String) :
    Except CtorError MatchHandler :=
  if features.length = matcherNames.length then do
    let referDets ← features.mapM
      (fun feat => (Detector.Factory feat).mapError CtorError.thrown)
    let inputDets ← features.mapM
      (fun feat => (Detector.Factory feat).mapError CtorError.thrown)
    let matchers ← (matcherNames.zip inputDets).mapM
      (fun p => (Matcher.Factory p.1 p.2.getResult.name).mapError CtorError.thrown)
    Except.ok ⟨referDets, inputDets, matchers, 1 / 2⟩
  else
    Except.error CtorError.assertViolation

/-- `MatchHandler::SetRefImage(refimg)`: detect and compute on the reference
image for every reference-side detector. -/
def MatchHandler.SetRefImage (dac : FeatureAlg → Mat → List KeyPt × Mat)
    (h : MatchHandler) (refimg : Mat) : MatchHandler :=
  { h with referDets := h.referDets.map (fun det => det.DetectAndCompute dac refimg) }

/-- `MatchHandler::MatchImage(inpimg)`: detect and compute on the input image
for every input-side detector, then for each pipeline index run
`matchers[i].MatchDescriptors(referDets[i].descriptors, inputDets[i].descriptors)`.
The index loop is rendered as a zip, which coincides with it under the
equal-length invariant established by the constructor. -/
def MatchHandler.MatchImage (dac : FeatureAlg → Mat → List KeyPt × Mat)
    (cvMatch : MatcherAlg → Mat → Mat → List DMatch) (ratio : ℚ)
    (h : MatchHandler) (inpimg : Mat) : MatchHandler :=
  let inputDets := h.inputDets.map (fun det => det.DetectAndCompute dac inpimg)
  let matchers := (h.matchers.zip (h.referDets.zip inputDets)).map
    (fun p => p.1.MatchDescriptors cvMatch ratio
      p.2.1.getResult.descriptors p.2.2.getResult.descriptors)
  { h with inputDets := inputDets, matchers := matchers }

/-- `MatchHandler::ChangeAcceptRatio(change)`: add the delta to the tracked
member, clamp it to the interval from 0 to 1 via
`std::max(std::min(acceptRatio, 1.f), 0.f)`, and write the clamped value into
the shared global `Matcher::AcceptRatio()`.  The first component is the
updated handler, the second the value written into the shared global. -/
def MatchHandler.ChangeAcceptRatio (h : MatchHandler) (change : ℚ) :
    MatchHandler × ℚ :=
  let newRatio := max (min (h.acceptRatio + change) 1) 0
  ({ h with acceptRatio := newRatio }, newRatio)

/-- A `cv::Mat` used as a rendered frame, kept symbolic: the empty matrix,
the output of `cv::drawMatches`, the result of drawing a text label, a
vertical concatenation, and a resize to given column/row counts. -/
inductive Frame where
  | empty : Frame
  | rendered (inpImage : Mat) (inpKeypts : List KeyPt)
      (refImage : Mat) (refKeypts : List KeyPt) (ms : List DMatch) : Frame
  | texted (base : Frame) (label : String) : Frame
  | vertcat (frames : List Frame) : Frame
  | resized (base : Frame) (cols rows : Nat) : Frame
deriving Repr

/-- `cv::Mat::empty()` on a frame. -/
def Frame.isEmpty : Frame → Bool
  | Frame.empty => true
  | _ => false

/-- `cv::Mat::rows` of a frame: a `drawMatches` rendering is as tall as the
taller of its two source images, text drawing keeps the size, vertical
concatenation sums the heights. -/
def Frame.rows : Frame → Nat
  | Frame.empty => 0
  | Frame.rendered inp _ ref _ _ => max inp.length ref.length
  | Frame.texted f _ => f.rows
  | Frame.vertcat fs => (fs.attach.map (fun x => Frame.rows x.1)).sum
  | Frame.resized _ _ r => r
decreasing_by
  all_goals simp_wf
  all_goals try omega
  all_goals
    have hlt := List.sizeOf_lt_of_mem x.2
    omega

/-- `cv::Mat::cols` of a frame: a `drawMatches` rendering is as wide as its
two source images side by side; `cv::vconcat` requires equal widths, modelled
as the widest member. -/
def Frame.cols : Frame → Nat
  | Frame.empty => 0
  | Frame.rendered inp _ ref _ _ => matCols inp + matCols ref
  | Frame.texted f _ => f.cols
  | Frame.vertcat fs => (fs.attach.map (fun x => Frame.cols x.1)).foldr max 0
  | Frame.resized _ c _ => c
decreasing_by
  all_goals simp_wf
  all_goals try omega
  all_goals
    have hlt := List.sizeOf_lt_of_mem x.2
    omega

/-- Whether a frame is the output of a `cv::resize` call. -/
def Frame.isResized : Frame → Bool
  | Frame.resized _ _ _ => true
  | _ => false

/-- `cv::drawMatches`: external.  The source documents it as having "a high
probability of error occurring" for certain inputs; whether a given call
throws is modelled by the oracle `drawFails`, and a successful call produces
the symbolic rendering of its arguments. -/
def cvDrawMatches (drawFails : Mat → List KeyPt → Mat → List KeyPt → List DMatch → Bool)
    (inpImage : Mat) (inpKeypts : List KeyPt) (refImage : Mat)
    (refKeypts : List KeyPt) (ms : List DMatch) : Except String Frame :=
  if drawFails inpImage inpKeypts refImage refKeypts ms then
    Except.error "cv exception"
  else
    Except.ok (Frame.rendered inpImage inpKeypts refImage refKeypts ms)

/-- `cv::putText`: external; draws a label onto the frame in place.  On an
empty (0 by 0) matrix every glyph is clipped away, so the frame stays empty
and unannotated. -/
def cvPutText (f : Frame) (label : String) : Frame :=
  match f with
  | Frame.empty => Frame.empty
  | f => Frame.texted f label

/-- `MatchHandler::DrawSingleResult(refDet, inpDet, match)` from the revised
source.  The `cv::drawMatches` call sits in a try/catch: on failure the
exception is logged to `std::cerr` and `matchimg` is left as the empty
matrix it was declared as.  `result_` starts empty, so the
`if(result_.empty())` branch always assigns `matchimg` to it.  The local
`maxheight` is initialised to 0 and never changed before the final resize
guard `maxheight > 100 && maxheight < resimg.rows`. -/
def MatchHandler.DrawSingleResult
    (drawFails : Mat → List KeyPt → Mat → List KeyPt → List DMatch → Bool)
    (refDet inpDet : DetectResult) (mres : MatcherResult) : Frame :=
  let maxheight : Int := 0
  let matchimg : Frame :=
    match cvDrawMatches drawFails inpDet.image inpDet.keypts
        refDet.image refDet.keypts mres.matches' with
    | Except.ok img => img
    | Except.error _ => Frame.empty
  let matchimg2 := cvPutText matchimg inpDet.name
  let result0 : Frame := Frame.empty
  let result1 := if result0.isEmpty then matchimg2 else Frame.vertcat [result0, matchimg2]
  let resimg := result1
  if maxheight > 100 ∧ maxheight < (resimg.rows : Int) then
    let scale : ℚ := (maxheight : ℚ) / (resimg.rows : ℚ)
    Frame.resized resimg (⌊(resimg.cols : ℚ) * scale⌋).toNat (⌊(resimg.rows : ℚ) * scale⌋).toNat
  else
    resimg

/-- The local `std::vector<cv::Mat> resultImgs` built by the loop in
`MatchHandler::DrawMatchResult`: one `DrawSingleResult` frame per pipeline.
The index loop is rendered as a zip, which coincides with it under the
equal-length invariant established by the constructor. -/
def MatchHandler.resultImgs
    (drawFails : Mat → List KeyPt → Mat → List KeyPt → List DMatch → Bool)
    (h : MatchHandler) : List Frame :=
  (h.matchers.zip (h.referDets.zip h.inputDets)).map
    (fun p => MatchHandler.DrawSingleResult drawFails
      p.2.1.getResult p.2.2.getResult p.1.getResult)

/-- `MatchHandler::DrawMatchResult(maxHeight)` from the revised source:
vertically concatenate the per-pipeline frames, then halve the composite if
it is taller than `maxHeight` (default 1000). -/
def MatchHandler.DrawMatchResult
    (drawFails : Mat → List KeyPt → Mat → List KeyPt → List DMatch → Bool)
    (h : MatchHandler) (maxHeight : Int) : Frame :=
  let stackedResult := Frame.vertcat (h.resultImgs drawFails)
  if (stackedResult.rows : Int) > maxHeight then
    Frame.resized stackedResult (stackedResult.cols / 2) (stackedResult.rows / 2)
  else
    stackedResult

/-- Whether the `cv::drawMatches` call issued for pipeline `i` of a handler
throws, expressed with out-of-range defaults; it agrees with the call made
inside `DrawSingleResult` whenever `i` is in range. -/
def MatchHandler.drawCallFails
    (drawFails : Mat → List KeyPt → Mat → List KeyPt → List DMatch → Bool)
    (h : MatchHandler) (i : Nat) : Bool :=
  let refDet := (h.referDets.getD i (Detector.init "" FeatureAlg.sift)).getResult
  let inpDet := (h.inputDets.getD i (Detector.init "" FeatureAlg.sift)).getResult
  let mres := (h.matchers.getD i ⟨MatcherAlg.bf NormKind.l1, "", []⟩).getResult
  drawFails inpDet.image inpDet.keypts refDet.image refDet.keypts mres.matches'

/-- Fixed two-pipeline handler state used to instantiate the drawing
theorems; the four detectors store pairwise distinct images. -/
def c3Handler : MatchHandler :=
  ⟨[⟨FeatureAlg.sift, "sift", [[1]], [], [[1]]⟩, ⟨FeatureAlg.orb, "orb", [[2]], [], [[2]]⟩],
   [⟨FeatureAlg.sift, "sift", [[3]], [], [[3]]⟩, ⟨FeatureAlg.orb, "orb", [[4]], [], [[4]]⟩],
   [⟨MatcherAlg.bf NormKind.l1, "bf", []⟩, ⟨MatcherAlg.bf NormKind.hamming, "bf", []⟩],
   1 / 2⟩

/-- A drawing-failure oracle that throws exactly on the input image stored in
`c3Handler`'s first input-side detector. -/
def c3Fails : Mat → List KeyPt → Mat → List KeyPt → List DMatch → Bool :=
  fun inpImage _ _ _ _ => decide (inpImage = [[(3 : ℚ)]])

/-- The handler value produced by `MatchHandler.construct` on the name lists
used in the construction witness. -/
def c7Handler : MatchHandler :=
  ⟨[Detector.init "sift" FeatureAlg.sift, Detector.init "orb" FeatureAlg.orb],
   [Detector.init "sift" FeatureAlg.sift, Detector.init "orb" FeatureAlg.orb],
   [⟨MatcherAlg.flannBased FlannIndex.defaultIndex, "flann", []⟩,
    ⟨MatcherAlg.bf NormKind.hamming, "bf", []⟩],
   1 / 2⟩

/-- Fixed raw match list used to instantiate `MatchDescriptors_filter_spec`. -/
def c1Oracle : MatcherAlg → Mat → Mat → List DMatch :=
  fun _ _ _ => [⟨0, 0, 3⟩, ⟨1, 1, 1⟩, ⟨2, 2, 2⟩, ⟨3, 3, 4⟩]

/-- Fixed matcher used to instantiate `MatchDescriptors_filter_spec`. -/
def c1Matcher : Matcher := ⟨MatcherAlg.bf NormKind.l1, "bf", []⟩

/-- C1: `MatchDescriptors` stores exactly `floor(rawMatchCount * ratio)`
matches, where `rawMatchCount` is the length of the raw list returned by
the underlying matcher; the stored list is sorted by non-decreasing
distance, and together with the dropped tail of the sorted raw list it is a
permutation of the raw matches, every kept match having distance at most
that of every dropped one — i.e. the kept entries are precisely the
lowest-distance matches. -/
theorem MatchDescriptors_filter_spec
    (cvMatch : MatcherAlg → Mat → Mat → List DMatch) (ratio : ℚ) (m : Matcher)
    (referDesc inputDesc : Mat) (h0 : 0 ≤ ratio) (h1 : ratio ≤ 1) :
    (m.MatchDescriptors cvMatch ratio referDesc inputDesc).matches'.length
        = (⌊((cvMatch m.alg inputDesc referDesc).length : ℚ) * ratio⌋).toNat
    ∧ (m.MatchDescriptors cvMatch ratio referDesc inputDesc).matches'.Sorted dmatchLE
    ∧ ((m.MatchDescriptors cvMatch ratio referDesc inputDesc).matches'
        ++ (List.insertionSort dmatchLE (cvMatch m.alg inputDesc referDesc)).drop
            (numGoodMatches (cvMatch m.alg inputDesc referDesc).length ratio)).Perm
        (cvMatch m.alg inputDesc referDesc)
    ∧ ∀ a ∈ (m.MatchDescriptors cvMatch ratio referDesc inputDesc).matches',
      ∀ b ∈ (List.insertionSort dmatchLE (cvMatch m.alg inputDesc referDesc)).drop
            (numGoodMatches (cvMatch m.alg inputDesc referDesc).length ratio),
        a.distance ≤ b.distance := by
  set raw := cvMatch m.alg inputDesc referDesc with hraw
  have hres : (m.MatchDescriptors cvMatch ratio referDesc inputDesc).matches'
      = (List.insertionSort dmatchLE raw).take (numGoodMatches raw.length ratio) := rfl
  have hsorted : (List.insertionSort dmatchLE raw).Sorted dmatchLE :=
    List.sorted_insertionSort dmatchLE raw
  have hlen : (List.insertionSort dmatchLE raw).length = raw.length :=
    List.length_insertionSort dmatchLE raw
  have hk : numGoodMatches raw.length ratio ≤ raw.length := by
    have hmul : (raw.length : ℚ) * ratio ≤ (raw.length : ℚ) := by
      calc (raw.length : ℚ) * ratio ≤ (raw.length : ℚ) * 1 :=
            mul_le_mul_of_nonneg_left h1 (by positivity)
        _ = (raw.length : ℚ) := mul_one _
    have hfl : ⌊(raw.length : ℚ) * ratio⌋ ≤ (raw.length : ℤ) := by
      have := Int.floor_le_floor hmul
      simpa using this
    have : (⌊(raw.length : ℚ) * ratio⌋).toNat ≤ ((raw.length : ℤ)).toNat :=
      Int.toNat_le_toNat hfl
    simpa [numGoodMatches] using this
  refine ⟨?_, ?_, ?_, ?_⟩
  · rw [hres]
    rw [List.length_take, hlen]
    simpa [numGoodMatches] using Nat.min_eq_left hk
  · rw [hres]
    exact List.Pairwise.sublist (List.take_sublist _ _) hsorted
  · rw [hres]
    have : (List.insertionSort dmatchLE raw).take (numGoodMatches raw.length ratio)
        ++ (List.insertionSort dmatchLE raw).drop (numGoodMatches raw.length ratio)
        = List.insertionSort dmatchLE raw := List.take_append_drop _ _
    rw [this]
    exact List.perm_insertionSort dmatchLE raw
  · rw [hres]
    intro a ha b hb
    have hsplit := List.take_append_drop (numGoodMatches raw.length ratio)
      (List.insertionSort dmatchLE raw)
    have hpw : (((List.insertionSort dmatchLE raw).take (numGoodMatches raw.length ratio))
        ++ ((List.insertionSort dmatchLE raw).drop (numGoodMatches raw.length ratio))).Pairwise
          dmatchLE := by
      rw [hsplit]; exact hsorted
    exact (List.pairwise_append.mp hpw).2.2 a ha b hb

/-- Witness for C1: at ratio 1/2 and a raw list of four matches, exactly
two matches are kept, and they are the two lowest-distance ones. -/
theorem MatchDescriptors_filter_spec_witness :
    (0 : ℚ) ≤ 1 / 2 ∧ (1 / 2 : ℚ) ≤ 1 ∧
    (c1Matcher.MatchDescriptors c1Oracle (1 / 2) [] []).matches'.length = 2 ∧
    (c1Matcher.MatchDescriptors c1Oracle (1 / 2) [] []).matches'
      = [⟨1, 1, 1⟩, ⟨2, 2, 2⟩] := by
  have hn : numGoodMatches 4 (1 / 2) = 2 := by
    norm_num [numGoodMatches]; rfl
  have hev : (c1Matcher.MatchDescriptors c1Oracle (1 / 2) [] []).matches'
      = [⟨1, 1, 1⟩, ⟨2, 2, 2⟩] := by
    simp only [Matcher.MatchDescriptors, filterMatches, c1Oracle, c1Matcher,
      List.length_cons, List.length_nil]
    norm_num [hn, dmatchLE, List.insertionSort, List.orderedInsert]
  refine ⟨by norm_num, by norm_num, ?_, hev⟩
  have h := MatchDescriptors_filter_spec c1Oracle (1 / 2) c1Matcher [] []
    (by norm_num) (by norm_num)
  have hlen := h.1
  have hfl : ((⌊((c1Oracle c1Matcher.alg [] []).length : ℚ) * (1 / 2)⌋).toNat) = 2 := by
    norm_num [c1Oracle]
    rfl
  rw [hfl] at hlen
  exact hlen

/-- C10: the revised-source and `feature.hpp` versions of `Detector::Factory`
are observationally equivalent: on every input string they produce the same
detector or throw the same error. -/
theorem DetectorFactory_versions_equiv (name : String) :
    Detector.Factory name = Detector.FactoryHpp name := by
  unfold Detector.Factory Detector.FactoryHpp detectorFactoryDesc
  split_ifs <;> rfl

/-- C5: the detector factory succeeds exactly on the five recognised
algorithm names and the matcher factory exactly on the two recognised
matcher names (for every descriptor-name argument); all other strings make
the respective factory throw. -/
theorem Factory_recognized_names :
    (∀ name : String, (Detector.Factory name).isOk = true ↔
        name ∈ ["sift", "surf", "orb", "kaze", "brisk"])
    ∧ (∀ name descName : String, (Matcher.Factory name descName).isOk = true ↔
        name ∈ ["flann", "bf"]) := by
  constructor
  · intro name
    unfold Detector.Factory
    split_ifs <;> simp_all [Except.isOk, Except.toBool]
  · intro name descName
    unfold Matcher.Factory
    split_ifs <;> simp_all [Except.isOk, Except.toBool]

/-- C6: the descriptor algorithm name selects the metric: with "orb" the bf
matcher uses the Hamming norm and the flann matcher the LSH index, while
with every other recognised descriptor name bf uses the L1 norm and flann
its default index. -/
theorem MatcherFactory_metric_selection :
    Matcher.Factory "bf" "orb"
      = Except.ok ⟨MatcherAlg.bf NormKind.hamming, "bf", []⟩
    ∧ Matcher.Factory "flann" "orb"
      = Except.ok ⟨MatcherAlg.flannBased (FlannIndex.lsh 12 20 2), "flann", []⟩
    ∧ ∀ descName ∈ ["sift", "surf", "kaze", "brisk"],
      Matcher.Factory "bf" descName
        = Except.ok ⟨MatcherAlg.bf NormKind.l1, "bf", []⟩
      ∧ Matcher.Factory "flann" descName
        = Except.ok ⟨MatcherAlg.flannBased FlannIndex.defaultIndex, "flann", []⟩ := by
  refine ⟨rfl, rfl, ?_⟩
  intro descName hd
  fin_cases hd <;> exact ⟨rfl, rfl⟩

/-- Witness for C6 at the descriptor name "sift". -/
theorem MatcherFactory_metric_selection_witness :
    "sift" ∈ ["sift", "surf", "kaze", "brisk"]
    ∧ Matcher.Factory "bf" "sift" = Except.ok ⟨MatcherAlg.bf NormKind.l1, "bf", []⟩
    ∧ Matcher.Factory "flann" "sift"
      = Except.ok ⟨MatcherAlg.flannBased FlannIndex.defaultIndex, "flann", []⟩ := by
  have h := MatcherFactory_metric_selection.2.2 "sift" (by simp)
  exact ⟨by simp, h.1, h.2⟩

/-- C4: `ChangeAcceptRatio` adds the delta to the tracked member and clamps
it to the interval from 0 to 1; the value written to the shared global is
exactly the clamped tracked value; and from a tracked ratio of 1/2, a delta
of 8/10 yields exactly 1 and a delta of -2 yields exactly 0. -/
theorem ChangeAcceptRatio_spec (h : MatchHandler) (change : ℚ) :
    (h.ChangeAcceptRatio change).1.acceptRatio
        = max (min (h.acceptRatio + change) 1) 0
    ∧ (h.ChangeAcceptRatio change).2 = (h.ChangeAcceptRatio change).1.acceptRatio
    ∧ 0 ≤ (h.ChangeAcceptRatio change).1.acceptRatio
    ∧ (h.ChangeAcceptRatio change).1.acceptRatio ≤ 1
    ∧ (h.acceptRatio = 1 / 2 →
        (h.ChangeAcceptRatio (8 / 10)).1.acceptRatio = 1
        ∧ (h.ChangeAcceptRatio (-2)).1.acceptRatio = 0) := by
  refine ⟨rfl, rfl, le_max_right _ _, max_le (min_le_right _ _) zero_le_one, ?_⟩
  intro h05
  constructor
  · show max (min (h.acceptRatio + 8 / 10) 1) 0 = 1
    rw [h05]
    norm_num
  · show max (min (h.acceptRatio + (-2)) 1) 0 = 0
    rw [h05]
    norm_num

/-- Witness for C4: from a concrete handler with tracked ratio 1/2, the
delta 8/10 clamps to exactly 1 and the delta -2 clamps to exactly 0. -/
theorem ChangeAcceptRatio_spec_witness :
    (MatchHandler.mk [] [] [] (1 / 2)).acceptRatio = 1 / 2
    ∧ ((MatchHandler.mk [] [] [] (1 / 2)).ChangeAcceptRatio (8 / 10)).1.acceptRatio = 1
    ∧ ((MatchHandler.mk [] [] [] (1 / 2)).ChangeAcceptRatio (-2)).1.acceptRatio = 0 := by
  refine ⟨rfl, ?_, ?_⟩
  · exact ((ChangeAcceptRatio_spec (MatchHandler.mk [] [] [] (1 / 2)) 0).2.2.2.2 rfl).1
  · exact ((ChangeAcceptRatio_spec (MatchHandler.mk [] [] [] (1 / 2)) 0).2.2.2.2 rfl).2

/-- `DrawSingleResult` in closed form: the frame is the (possibly clipped)
text annotation of either the symbolic rendering or, when the drawing call
throws, the empty matrix; the trailing resize guard never fires. -/
theorem DrawSingleResult_eq
    (drawFails : Mat → List KeyPt → Mat → List KeyPt → List DMatch → Bool)
    (refDet inpDet : DetectResult) (mres : MatcherResult) :
    MatchHandler.DrawSingleResult drawFails refDet inpDet mres
      = cvPutText
          (if drawFails inpDet.image inpDet.keypts refDet.image refDet.keypts mres.matches'
            then Frame.empty
            else Frame.rendered inpDet.image inpDet.keypts refDet.image refDet.keypts
              mres.matches')
          inpDet.name := by
  unfold MatchHandler.DrawSingleResult cvDrawMatches
  by_cases hf : drawFails inpDet.image inpDet.keypts refDet.image refDet.keypts mres.matches'
  · simp [hf, Frame.isEmpty]
  · simp [hf, Frame.isEmpty]

/-- C8: the downscale guard in `DrawSingleResult` compares against the local
`maxheight` variable, which is initialised to 0 and never reassigned, so the
guard is false for every input and the routine never resizes its output. -/
theorem DrawSingleResult_never_resizes
    (drawFails : Mat → List KeyPt → Mat → List KeyPt → List DMatch → Bool)
    (refDet inpDet : DetectResult) (mres : MatcherResult) :
    (¬ ((0 : Int) > 100
        ∧ (0 : Int) < ((MatchHandler.DrawSingleResult drawFails refDet inpDet mres).rows : Int)))
    ∧ (MatchHandler.DrawSingleResult drawFails refDet inpDet mres).isResized = false := by
  constructor
  · intro hcon
    exact absurd hcon.1 (by norm_num)
  · rw [DrawSingleResult_eq]
    by_cases hf : drawFails inpDet.image inpDet.keypts refDet.image refDet.keypts mres.matches'
    · simp [hf, cvPutText, Frame.isResized]
    · simp [hf, cvPutText, Frame.isResized]

/-- Running `DetectAndCompute` overwrites all image-dependent state, so a
second run supersedes the first entirely. -/
theorem DetectAndCompute_overwrite (dac : FeatureAlg → Mat → List KeyPt × Mat)
    (d : Detector) (a b : Mat) :
    (d.DetectAndCompute dac a).DetectAndCompute dac b = d.DetectAndCompute dac b := rfl

/-- Running `MatchDescriptors` overwrites the stored match list, so a second
run supersedes the first entirely. -/
theorem MatchDescriptors_overwrite (cvMatch : MatcherAlg → Mat → Mat → List DMatch)
    (r1 r2 : ℚ) (m : Matcher) (rd1 id1 rd2 id2 : Mat) :
    ((m.MatchDescriptors cvMatch r1 rd1 id1).MatchDescriptors cvMatch r2 rd2 id2)
      = m.MatchDescriptors cvMatch r2 rd2 id2 := rfl

/-- C2: matching image B after having matched image A leaves the handler in
exactly the state of matching B alone — in particular every matcher's stored
result, as retrieved by `getResult`, reflects only the latest input image. -/
theorem MatchImage_last_write_wins (dac : FeatureAlg → Mat → List KeyPt × Mat)
    (cvMatch : MatcherAlg → Mat → Mat → List DMatch) (ratio : ℚ)
    (h : MatchHandler) (refimg imgA imgB : Mat) :
    (((h.SetRefImage dac refimg).MatchImage dac cvMatch ratio imgA).MatchImage
        dac cvMatch ratio imgB)
      = ((h.SetRefImage dac refimg).MatchImage dac cvMatch ratio imgB)
    ∧ ((((h.SetRefImage dac refimg).MatchImage dac cvMatch ratio imgA).MatchImage
        dac cvMatch ratio imgB).matchers.map Matcher.getResult
      = ((h.SetRefImage dac refimg).MatchImage dac cvMatch ratio imgB).matchers.map
          Matcher.getResult) := by
  have key : ∀ g : MatchHandler,
      ((g.MatchImage dac cvMatch ratio imgA).MatchImage dac cvMatch ratio imgB)
        = g.MatchImage dac cvMatch ratio imgB := by
    intro g
    unfold MatchHandler.MatchImage
    simp only
    have hdet : (g.inputDets.map (fun det => det.DetectAndCompute dac imgA)).map
        (fun det => det.DetectAndCompute dac imgB)
        = g.inputDets.map (fun det => det.DetectAndCompute dac imgB) := by
      rw [List.map_map]
      rfl
    rw [hdet]
    congr 1
    apply List.ext_getElem
    · simp
    · intro i h1 h2
      simp only [List.getElem_map, List.getElem_zip]
      rfl
  exact ⟨key _, by rw [key _]⟩

/-- `bind` on a successful `Except` computation applies the continuation. -/
theorem except_ok_bind {ε α β : Type} (a : α) (f : α → Except ε β) :
    (Except.ok a >>= f : Except ε β) = f a := rfl

/-- `bind` on a failed `Except` computation propagates the error. -/
theorem except_error_bind {ε α β : Type} (e : ε) (f : α → Except ε β) :
    (Except.error e >>= f : Except ε β) = Except.error e := rfl

/-- `mapError` preserves success values. -/
theorem mapError_eq_ok {ε ε' α : Type} (f : ε → ε') (x : Except ε α) (a : α) :
    x.mapError f = Except.ok a ↔ x = Except.ok a := by
  cases x <;> simp [Except.mapError]

/-- A successful `mapM` over `Except` returns a list of the input's length
whose entries are the pointwise successful images. -/
theorem exceptMapM_ok {α β ε : Type} (g : α → Except ε β) :
    ∀ (l : List α) (res : List β), l.mapM g = Except.ok res →
      res.length = l.length
      ∧ ∀ i (hl : i < l.length) (hr : i < res.length),
          g (l.get ⟨i, hl⟩) = Except.ok (res.get ⟨i, hr⟩) := by
  intro l
  induction l with
  | nil =>
    intro res h
    rw [List.mapM_nil] at h
    cases h
    exact ⟨rfl, fun i hl _ => absurd hl (Nat.not_lt_zero i)⟩
  | cons x xs ih =>
    intro res h
    rw [List.mapM_cons] at h
    cases hx : g x with
    | error e =>
      rw [hx, except_error_bind] at h
      cases h
    | ok a =>
      rw [hx, except_ok_bind] at h
      cases hxs : xs.mapM g with
      | error e =>
        rw [hxs, except_error_bind] at h
        cases h
      | ok as =>
        rw [hxs, except_ok_bind] at h
        cases h
        have := ih as hxs
        refine ⟨by simpa using this.1, ?_⟩
        intro i hl hr
        cases i with
        | zero => simpa using hx
        | succ j =>
          have hjl : j < xs.length := by simpa using hl
          have hjr : j < as.length := by simpa using hr
          simpa using this.2 j hjl hjr

/-- The detector returned by a successful factory call stores the requested
name. -/
theorem DetectorFactory_name (s : String) (d : Detector) :
    Detector.Factory s = Except.ok d → d.name = s := by
  unfold Detector.Factory
  split_ifs with h1 h2 h3 h4 h5 <;> intro h
  · cases h; rfl
  · cases h; rfl
  · cases h; rfl
  · cases h; rfl
  · cases h; rfl
  · cases h

/-- C9: the shared global acceptance ratio is initialised to 1/2; every
freshly constructed handler's tracked ratio is that same initial value; and
filtering a raw match list at the initial ratio keeps exactly half of the
matches, rounded down. -/
theorem initial_accept_ratio_spec :
    Matcher.acceptRatioInit = 1 / 2
    ∧ (∀ (features matcherNames : List String) (hnd : MatchHandler),
        MatchHandler.construct features matcherNames = Except.ok hnd →
        hnd.acceptRatio = Matcher.acceptRatioInit)
    ∧ (∀ raw : List DMatch,
        (filterMatches Matcher.acceptRatioInit raw).length = raw.length / 2) := by
  refine ⟨rfl, ?_, ?_⟩
  · intro features matcherNames hnd hok
    unfold MatchHandler.construct at hok
    by_cases hlen : features.length = matcherNames.length
    · rw [if_pos hlen] at hok
      cases h1 : features.mapM
          (fun feat => (Detector.Factory feat).mapError CtorError.thrown) with
      | error e => rw [h1, except_error_bind] at hok; cases hok
      | ok referDets =>
        rw [h1, except_ok_bind, except_ok_bind] at hok
        cases h3 : (matcherNames.zip referDets).mapM
            (fun p => (Matcher.Factory p.1 p.2.getResult.name).mapError
              CtorError.thrown) with
        | error e => rw [h3, except_error_bind] at hok; cases hok
        | ok ms =>
          rw [h3, except_ok_bind] at hok
          cases hok
          rfl
    · rw [if_neg hlen] at hok
      cases hok
  · intro raw
    unfold filterMatches
    rw [List.length_take, List.length_insertionSort]
    have hfl : numGoodMatches raw.length Matcher.acceptRatioInit = raw.length / 2 := by
      unfold numGoodMatches Matcher.acceptRatioInit
      have hcast : ((raw.length : ℚ) * (1 / 2))
          = ((raw.length : ℕ) : ℚ) / ((2 : ℕ) : ℚ) := by
        push_cast
        ring
      rw [hcast, Rat.floor_natCast_div_natCast, ← Int.ofNat_ediv]
      exact Int.toNat_natCast _
    rw [hfl]
    exact Nat.min_eq_left (Nat.div_le_self _ _)

/-- Witness for C9: the handler constructed from concrete name lists carries
the initial tracked ratio. -/
theorem initial_accept_ratio_spec_witness :
    MatchHandler.construct ["sift", "orb"] ["flann", "bf"] = Except.ok c7Handler
    ∧ c7Handler.acceptRatio = Matcher.acceptRatioInit := by
  constructor
  · rfl
  · exact initial_accept_ratio_spec.2.1 ["sift", "orb"] ["flann", "bf"] c7Handler rfl

/-- C7: successful construction yields `referDets`, `inputDets` and
`matchers` of the common input length, pipeline i being built from the i-th
feature name and the i-th matcher name; name lists of unequal length abort
on the assertion; and the three lengths are preserved by `SetRefImage`,
`MatchImage` and `ChangeAcceptRatio`. -/
theorem construct_parallel_pipelines :
    (∀ (features matcherNames : List String) (hnd : MatchHandler),
      MatchHandler.construct features matcherNames = Except.ok hnd →
      hnd.referDets.length = features.length
      ∧ hnd.inputDets.length = features.length
      ∧ hnd.matchers.length = features.length
      ∧ features.length = matcherNames.length
      ∧ ∀ i (hif : i < features.length) (hr : i < hnd.referDets.length)
          (hi : i < hnd.inputDets.length) (hm : i < hnd.matchers.length)
          (him : i < matcherNames.length),
          Detector.Factory (features.get ⟨i, hif⟩)
              = Except.ok (hnd.referDets.get ⟨i, hr⟩)
          ∧ Detector.Factory (features.get ⟨i, hif⟩)
              = Except.ok (hnd.inputDets.get ⟨i, hi⟩)
          ∧ Matcher.Factory (matcherNames.get ⟨i, him⟩) (features.get ⟨i, hif⟩)
              = Except.ok (hnd.matchers.get ⟨i, hm⟩))
    ∧ (∀ features matcherNames : List String,
        features.length ≠ matcherNames.length →
        MatchHandler.construct features matcherNames
          = Except.error CtorError.assertViolation)
    ∧ (∀ (dac : FeatureAlg → Mat → List KeyPt × Mat)
        (cvMatch : MatcherAlg → Mat → Mat → List DMatch) (ratio : ℚ)
        (hnd : MatchHandler) (img : Mat) (n : Nat),
        hnd.referDets.length = n → hnd.inputDets.length = n →
        hnd.matchers.length = n →
          (hnd.SetRefImage dac img).referDets.length = n
          ∧ (hnd.SetRefImage dac img).inputDets.length = n
          ∧ (hnd.SetRefImage dac img).matchers.length = n
          ∧ (hnd.MatchImage dac cvMatch ratio img).referDets.length = n
          ∧ (hnd.MatchImage dac cvMatch ratio img).inputDets.length = n
          ∧ (hnd.MatchImage dac cvMatch ratio img).matchers.length = n
          ∧ (hnd.ChangeAcceptRatio ratio).1.referDets.length = n
          ∧ (hnd.ChangeAcceptRatio ratio).1.inputDets.length = n
          ∧ (hnd.ChangeAcceptRatio ratio).1.matchers.length = n) := by
  refine ⟨?_, ?_, ?_⟩
  · intro features matcherNames hnd hok
    unfold MatchHandler.construct at hok
    by_cases hlen : features.length = matcherNames.length
    · rw [if_pos hlen] at hok
      cases h1 : features.mapM
          (fun feat => (Detector.Factory feat).mapError CtorError.thrown) with
      | error e => rw [h1, except_error_bind] at hok; cases hok
      | ok referDets =>
        rw [h1, except_ok_bind, except_ok_bind] at hok
        cases h3 : (matcherNames.zip referDets).mapM
            (fun p => (Matcher.Factory p.1 p.2.getResult.name).mapError
              CtorError.thrown) with
        | error e => rw [h3, except_error_bind] at hok; cases hok
        | ok ms =>
          rw [h3, except_ok_bind] at hok
          cases hok
          have hrd := exceptMapM_ok _ features referDets h1
          have hms := exceptMapM_ok _ (matcherNames.zip referDets) ms h3
          have hmsLen : ms.length = features.length := by
            rw [hms.1, List.length_zip, hrd.1, ← hlen, Nat.min_self]
          refine ⟨hrd.1, hrd.1, hmsLen, hlen, ?_⟩
          intro i hif hr hi hm him
          have hfac : Detector.Factory (features.get ⟨i, hif⟩)
              = Except.ok (referDets.get ⟨i, hr⟩) :=
            (mapError_eq_ok _ _ _).mp (hrd.2 i hif hr)
          refine ⟨hfac, hfac, ?_⟩
          have hz : i < (matcherNames.zip referDets).length := by
            rw [List.length_zip]
            exact lt_min him hr
          have hmfac := (mapError_eq_ok _ _ _).mp (hms.2 i hz hm)
          have hzget : (matcherNames.zip referDets).get ⟨i, hz⟩
              = (matcherNames.get ⟨i, him⟩, referDets.get ⟨i, hr⟩) := by
            rw [List.get_eq_getElem, List.get_eq_getElem, List.get_eq_getElem]
            exact List.getElem_zip
          rw [hzget] at hmfac
          have hname : (referDets.get ⟨i, hr⟩).name = features.get ⟨i, hif⟩ :=
            DetectorFactory_name _ _ hfac
          have hgr : (referDets.get ⟨i, hr⟩).getResult.name
              = (referDets.get ⟨i, hr⟩).name := rfl
          rw [hgr, hname] at hmfac
          exact hmfac
    · rw [if_neg hlen] at hok
      cases hok
  · intro features matcherNames hne
    unfold MatchHandler.construct
    rw [if_neg hne]
  · intro dac cvMatch ratio hnd img n hr hi hm
    unfold MatchHandler.SetRefImage MatchHandler.MatchImage MatchHandler.ChangeAcceptRatio
    simp only [List.length_map, List.length_zip]
    refine ⟨by rw [hr], hi, hm, hr, by rw [hi], ?_, hr, hi, hm⟩
    rw [hm, hr, hi]
    omega

/-- Witness for C7: concrete equal-length and unequal-length constructions,
with the lengths of the three pipeline lists checked on the result and
preserved by a subsequent operation. -/
theorem construct_parallel_pipelines_witness :
    (["sift", "orb", "kaze"] : List String).length
        ≠ (["flann", "bf"] : List String).length
    ∧ MatchHandler.construct ["sift", "orb", "kaze"] ["flann", "bf"]
        = Except.error CtorError.assertViolation
    ∧ MatchHandler.construct ["sift", "orb"] ["flann", "bf"] = Except.ok c7Handler
    ∧ c7Handler.referDets.length = 2
    ∧ c7Handler.inputDets.length = 2
    ∧ c7Handler.matchers.length = 2
    ∧ (c7Handler.SetRefImage (fun _ _ => ([], [])) []).referDets.length = 2
    ∧ (c7Handler.SetRefImage (fun _ _ => ([], [])) []).matchers.length = 2 := by
  have hne : (["sift", "orb", "kaze"] : List String).length
      ≠ (["flann", "bf"] : List String).length := by decide
  have hb := construct_parallel_pipelines.2.1 ["sift", "orb", "kaze"] ["flann", "bf"] hne
  have hok : MatchHandler.construct ["sift", "orb"] ["flann", "bf"]
      = Except.ok c7Handler := rfl
  have ha := construct_parallel_pipelines.1 ["sift", "orb"] ["flann", "bf"] c7Handler hok
  have hc := construct_parallel_pipelines.2.2 (fun _ _ => ([], []))
    (fun _ _ _ => []) (1 / 2) c7Handler [] 2 (ha.1.trans rfl) (ha.2.1.trans rfl)
    (ha.2.2.1.trans rfl)
  exact ⟨hne, hb, hok, ha.1.trans rfl, ha.2.1.trans rfl, ha.2.2.1.trans rfl,
    hc.1, hc.2.2.1⟩

/-- C3: when the drawing call throws for exactly one of the pipelines, the
failure is absorbed inside that pipeline's `DrawSingleResult`: the frame
list still has one frame per pipeline, the failing pipeline contributes the
blank placeholder frame, every other pipeline contributes a non-empty
annotated rendering, and whenever the stack fits under `maxHeight` the
composite is exactly the vertical concatenation of all those frames. -/
theorem DrawMatchResult_failure_isolated
    (drawFails : Mat → List KeyPt → Mat → List KeyPt → List DMatch → Bool)
    (h : MatchHandler) (n j : Nat)
    (hr : h.referDets.length = n) (hi : h.inputDets.length = n)
    (hm : h.matchers.length = n) (hj : j < n)
    (hfail : ∀ i, i < n → (h.drawCallFails drawFails i = true ↔ i = j)) :
    (h.resultImgs drawFails).length = n
    ∧ (∀ hjl : j < (h.resultImgs drawFails).length,
        (h.resultImgs drawFails).get ⟨j, hjl⟩ = Frame.empty)
    ∧ (∀ i (hil : i < (h.resultImgs drawFails).length), i ≠ j →
        ((h.resultImgs drawFails).get ⟨i, hil⟩).isEmpty = false)
    ∧ (∀ maxHeight : Int,
        ((Frame.vertcat (h.resultImgs drawFails)).rows : Int) ≤ maxHeight →
        h.DrawMatchResult drawFails maxHeight
          = Frame.vertcat (h.resultImgs drawFails)) := by
  have hlen : (h.resultImgs drawFails).length = n := by
    unfold MatchHandler.resultImgs
    rw [List.length_map, List.length_zip, List.length_zip, hr, hi, hm]
    omega
  have hget : ∀ i (hil : i < (h.resultImgs drawFails).length),
      (h.resultImgs drawFails).get ⟨i, hil⟩
        = cvPutText
            (if h.drawCallFails drawFails i
              then Frame.empty
              else Frame.rendered
                (h.inputDets.getD i (Detector.init "" FeatureAlg.sift)).image
                (h.inputDets.getD i (Detector.init "" FeatureAlg.sift)).keypts
                (h.referDets.getD i (Detector.init "" FeatureAlg.sift)).image
                (h.referDets.getD i (Detector.init "" FeatureAlg.sift)).keypts
                (h.matchers.getD i ⟨MatcherAlg.bf NormKind.l1, "", []⟩).matches')
            (h.inputDets.getD i (Detector.init "" FeatureAlg.sift)).name := by
    intro i hil
    have hin : i < n := hlen ▸ hil
    have hbm : i < h.matchers.length := hm ▸ hin
    have hbr : i < h.referDets.length := hr ▸ hin
    have hbi : i < h.inputDets.length := hi ▸ hin
    have hstep : (h.resultImgs drawFails).get ⟨i, hil⟩
        = MatchHandler.DrawSingleResult drawFails
            ((h.referDets.getD i (Detector.init "" FeatureAlg.sift)).getResult)
            ((h.inputDets.getD i (Detector.init "" FeatureAlg.sift)).getResult)
            ((h.matchers.getD i ⟨MatcherAlg.bf NormKind.l1, "", []⟩).getResult) := by
      unfold MatchHandler.resultImgs
      rw [List.get_eq_getElem]
      rw [List.getElem_map]
      rw [List.getElem_zip, List.getElem_zip]
      rw [List.getD_eq_getElem h.referDets _ hbr, List.getD_eq_getElem h.inputDets _ hbi,
        List.getD_eq_getElem h.matchers _ hbm]
    rw [hstep, DrawSingleResult_eq]
    rfl
  refine ⟨hlen, ?_, ?_, ?_⟩
  · intro hjl
    have hcond : h.drawCallFails drawFails j = true := (hfail j hj).mpr rfl
    rw [hget j hjl]
    rw [if_pos hcond]
    rfl
  · intro i hil hne
    have hin : i < n := hlen ▸ hil
    have hcond : h.drawCallFails drawFails i = false := by
      have : ¬ (h.drawCallFails drawFails i = true) :=
        fun hh => hne ((hfail i hin).mp hh)
      exact Bool.not_eq_true _ ▸ this
    rw [hget i hil]
    rw [if_neg (by rw [hcond]; exact Bool.false_ne_true)]
    rfl
  · intro maxHeight hfit
    unfold MatchHandler.DrawMatchResult
    simp only
    rw [if_neg (not_lt.mpr hfit)]

/-- The height of a vertical concatenation is the sum of the heights. -/
theorem Frame_rows_vertcat (fs : List Frame) :
    (Frame.vertcat fs).rows = (fs.map Frame.rows).sum := by
  rw [Frame.rows, List.attach_map_val]

/-- Witness for C3: with two pipelines and a drawing failure on the first,
the frame list still has two entries — the blank placeholder and one normal
annotated rendering — and the composite at the default height bound 1000 is
their vertical stack. -/
theorem DrawMatchResult_failure_isolated_witness :
    (0 : Nat) < 2
    ∧ (∀ i, i < 2 → (c3Handler.drawCallFails c3Fails i = true ↔ i = 0))
    ∧ (c3Handler.resultImgs c3Fails).length = 2
    ∧ (c3Handler.resultImgs c3Fails).getD 0 (Frame.texted Frame.empty "x")
        = Frame.empty
    ∧ ((c3Handler.resultImgs c3Fails).getD 1 Frame.empty).isEmpty = false
    ∧ c3Handler.DrawMatchResult c3Fails 1000
        = Frame.vertcat (c3Handler.resultImgs c3Fails) := by
  have hfail : ∀ i, i < 2 → (c3Handler.drawCallFails c3Fails i = true ↔ i = 0) := by
    intro i hi2
    interval_cases i
    · simp [MatchHandler.drawCallFails, c3Handler, c3Fails,
        Detector.getResult, Matcher.getResult]
    · simp [MatchHandler.drawCallFails, c3Handler, c3Fails,
        Detector.getResult, Matcher.getResult]
  have h := DrawMatchResult_failure_isolated c3Fails c3Handler 2 0
    rfl rfl rfl (by norm_num) hfail
  have hb0 : 0 < (c3Handler.resultImgs c3Fails).length := by rw [h.1]; norm_num
  have hb1 : 1 < (c3Handler.resultImgs c3Fails).length := by rw [h.1]; norm_num
  refine ⟨by norm_num, hfail, h.1, ?_, ?_, ?_⟩
  · rw [List.getD_eq_getElem _ _ hb0]
    have hv := h.2.1 hb0
    rw [List.get_eq_getElem] at hv
    exact hv
  · rw [List.getD_eq_getElem _ _ hb1]
    have hv := h.2.2.1 1 hb1 (by norm_num)
    rw [List.get_eq_getElem] at hv
    exact hv
  · apply h.2.2.2 1000
    rw [Frame_rows_vertcat]
    have himgs : c3Handler.resultImgs c3Fails
        = [Frame.empty, Frame.texted (Frame.rendered [[4]] [] [[2]] [] []) "orb"] := by
      rfl
    rw [himgs]
    simp [Frame.rows]

end FeatureRepo
